import Mathlib

/-
Formal model of the Piff joint-mode wavefront calibrator
(piff/des/decam_wavefront_psf.py) together with spec-level models of the
nearest-neighbor and Gaussian-process interpolators, and proofs of the
specified properties of this code.

Numeric values are modelled as exact rationals; the IEEE not-a-number
sentinel used by update_psf_params is modelled explicitly by the type
PyFloat, whose self-equality test mirrors the Python expression x == x
(false exactly on NaN).
-/

namespace Piff

/-- A Python float as used by the NaN-sentinel logic of the calibrator:
either the quiet NaN sentinel or an actual (rational) value. -/
inductive PyFloat where
  | nan : PyFloat
  | val : ℚ → PyFloat
deriving DecidableEq, Repr

/-- The Python expression x == x, which is False exactly when x is NaN.
This is the test used by update_psf_params and by np.where(m == m, m, old). -/
def PyFloat.eqSelf : PyFloat → Bool
  | .nan => false
  | .val _ => true

theorem PyFloat.eqSelf_iff (x : PyFloat) : x.eqSelf = true ↔ x ≠ .nan := by
  cases x <;> simp [PyFloat.eqSelf]

theorem PyFloat.eqSelf_nan : PyFloat.eqSelf .nan = false := rfl

/-- The mutable state of DECamWavefrontPSF that update_psf_params touches,
plus the normalized weight vector fixed at construction:
model.kolmogorov_kwargs r0, model.g1, model.g2, interp.misalignment
(8 Zernike rows 04..11, columns d, x, y), and self.weights. -/
structure WFState where
  r0 : PyFloat
  g1 : PyFloat
  g2 : PyFloat
  misalignment : Matrix (Fin 8) (Fin 3) PyFloat
  weights : Fin 3 → ℚ

/-- The keyword arguments of update_psf_params; every parameter defaults to
the NaN sentinel, meaning: leave the installed value unchanged. -/
structure UpdateParams where
  r0 : PyFloat := .nan
  g1 : PyFloat := .nan
  g2 : PyFloat := .nan
  z04d : PyFloat := .nan
  z04x : PyFloat := .nan
  z04y : PyFloat := .nan
  z05d : PyFloat := .nan
  z05x : PyFloat := .nan
  z05y : PyFloat := .nan
  z06d : PyFloat := .nan
  z06x : PyFloat := .nan
  z06y : PyFloat := .nan
  z07d : PyFloat := .nan
  z07x : PyFloat := .nan
  z07y : PyFloat := .nan
  z08d : PyFloat := .nan
  z08x : PyFloat := .nan
  z08y : PyFloat := .nan
  z09d : PyFloat := .nan
  z09x : PyFloat := .nan
  z09y : PyFloat := .nan
  z10d : PyFloat := .nan
  z10x : PyFloat := .nan
  z10y : PyFloat := .nan
  z11d : PyFloat := .nan
  z11x : PyFloat := .nan
  z11y : PyFloat := .nan
deriving DecidableEq, Repr

/-- The np.array literal built inside update_psf_params from the 24
misalignment keyword arguments: rows are Zernike 04..11, columns d, x, y. -/
def UpdateParams.misMatrix (p : UpdateParams) : Matrix (Fin 8) (Fin 3) PyFloat :=
  !![p.z04d, p.z04x, p.z04y;
     p.z05d, p.z05x, p.z05y;
     p.z06d, p.z06x, p.z06y;
     p.z07d, p.z07x, p.z07y;
     p.z08d, p.z08x, p.z08y;
     p.z09d, p.z09x, p.z09y;
     p.z10d, p.z10x, p.z10y;
     p.z11d, p.z11x, p.z11y]

/-- DECamWavefrontPSF.update_psf_params: each of r0, g1, g2 is installed only
when it passes the x == x test; the misalignment matrix is replaced by
np.where(m == m, m, old_misalignment), elementwise keeping the old entry
exactly where the new one is NaN. -/
def update_psf_params (s : WFState) (p : UpdateParams) : WFState :=
  let misalignment := p.misMatrix
  { s with
    r0 := if p.r0.eqSelf then p.r0 else s.r0
    g1 := if p.g1.eqSelf then p.g1 else s.g1
    g2 := if p.g2.eqSelf then p.g2 else s.g2
    misalignment := fun i j =>
      if (misalignment i j).eqSelf then misalignment i j else s.misalignment i j }

/-- C1: partial parameter update in joint mode. Every parameter supplied as
the NaN sentinel leaves the previously installed value unchanged, and every
parameter supplied as a non-NaN value replaces it; consequently an update
that supplies only one misalignment coefficient leaves r0, g1, g2 and every
other entry of the 8x3 misalignment matrix numerically unchanged. -/
theorem update_psf_params_sentinel (s : WFState) (p : UpdateParams) :
    ((p.r0 = .nan → (update_psf_params s p).r0 = s.r0) ∧
     (p.r0 ≠ .nan → (update_psf_params s p).r0 = p.r0)) ∧
    ((p.g1 = .nan → (update_psf_params s p).g1 = s.g1) ∧
     (p.g1 ≠ .nan → (update_psf_params s p).g1 = p.g1)) ∧
    ((p.g2 = .nan → (update_psf_params s p).g2 = s.g2) ∧
     (p.g2 ≠ .nan → (update_psf_params s p).g2 = p.g2)) ∧
    (∀ i j, (p.misMatrix i j = .nan →
        (update_psf_params s p).misalignment i j = s.misalignment i j) ∧
      (p.misMatrix i j ≠ .nan →
        (update_psf_params s p).misalignment i j = p.misMatrix i j)) ∧
    (∀ i₀ j₀, p.r0 = .nan → p.g1 = .nan → p.g2 = .nan →
      (∀ i j, (i, j) ≠ (i₀, j₀) → p.misMatrix i j = .nan) →
      (update_psf_params s p).r0 = s.r0 ∧
      (update_psf_params s p).g1 = s.g1 ∧
      (update_psf_params s p).g2 = s.g2 ∧
      ∀ i j, (i, j) ≠ (i₀, j₀) →
        (update_psf_params s p).misalignment i j = s.misalignment i j) := by
  have hr : ∀ x : PyFloat, ∀ a b : PyFloat,
      (x = .nan → (if x.eqSelf then a else b) = b) ∧
      (x ≠ .nan → (if x.eqSelf then a else b) = a) := by
    intro x a b
    constructor
    · intro h; subst h; simp [PyFloat.eqSelf]
    · intro h; simp [(PyFloat.eqSelf_iff x).2 h]
  refine ⟨⟨?_, ?_⟩, ⟨?_, ?_⟩, ⟨?_, ?_⟩, ?_, ?_⟩
  · intro h; exact (hr p.r0 p.r0 s.r0).1 h
  · intro h; exact (hr p.r0 p.r0 s.r0).2 h
  · intro h; exact (hr p.g1 p.g1 s.g1).1 h
  · intro h; exact (hr p.g1 p.g1 s.g1).2 h
  · intro h; exact (hr p.g2 p.g2 s.g2).1 h
  · intro h; exact (hr p.g2 p.g2 s.g2).2 h
  · intro i j
    exact ⟨fun h => (hr (p.misMatrix i j) (p.misMatrix i j) (s.misalignment i j)).1 h,
           fun h => (hr (p.misMatrix i j) (p.misMatrix i j) (s.misalignment i j)).2 h⟩
  · intro i₀ j₀ h0 h1 h2 hm
    refine ⟨(hr p.r0 p.r0 s.r0).1 h0, (hr p.g1 p.g1 s.g1).1 h1,
            (hr p.g2 p.g2 s.g2).1 h2, ?_⟩
    intro i j hij
    exact (hr (p.misMatrix i j) (p.misMatrix i j) (s.misalignment i j)).1 (hm i j hij)

/-- A concrete installed state used to instantiate the theorems. -/
def exampleState : WFState :=
  { r0 := .val (1/10), g1 := .val 0, g2 := .val 0,
    misalignment := fun _ _ => .val 0, weights := fun _ => 1/3 }

/-- A concrete partial update supplying only the z05x coefficient. -/
def exampleUpdate : UpdateParams := { z05x := .val 7 }

/-- Witness for C1: updating only z05x from the example state leaves r0 and
the (0,0) misalignment entry unchanged and installs 7 at entry (1,1). -/
theorem update_psf_params_sentinel_witness :
    (update_psf_params exampleState exampleUpdate).r0 = exampleState.r0 ∧
    (update_psf_params exampleState exampleUpdate).misalignment 1 1 = .val 7 ∧
    (update_psf_params exampleState exampleUpdate).misalignment 0 0 =
      exampleState.misalignment 0 0 := by
  refine ⟨(update_psf_params_sentinel exampleState exampleUpdate).1.1 rfl, ?_, ?_⟩
  · exact ((update_psf_params_sentinel exampleState exampleUpdate).2.2.2.1 1 1).2
      (by decide)
  · exact ((update_psf_params_sentinel exampleState exampleUpdate).2.2.2.1 0 0).1
      (by decide)

/-- Sum of a mapped list written as a sum over positions. -/
theorem sum_map_get {α : Type} (l : List α) (f : α → ℚ) :
    (l.map f).sum = ∑ i : Fin l.length, f (l[(i : Nat)]) := by
  rw [← List.ofFn_getElem_eq_map, List.sum_ofFn]

/-- External outcome of a Minuit migrad run: the best-found parameter values
and whether the search converged within its call budget (ncall). -/
structure MinuitResult where
  values : UpdateParams
  converged : Bool

/-- The chi-square accumulator np.sum(weights * np.square(shapes - targets)):
the 3-component weight vector broadcasts over the rows of the (n, 3) array. -/
def chi2Of (w : Fin 3 → ℚ) (shapes targets : List (Fin 3 → ℚ)) : ℚ :=
  ((shapes.zip targets).map fun mt => ∑ j : Fin 3, w j * (mt.1 j - mt.2 j) ^ 2).sum

/-- DECamWavefrontPSF._fit_func over an abstract star type S. The external
render-and-measure pipeline (decaminfo coordinates, wavefront interpolation,
optical draw, Gaussian re-measurement) is abstracted as measure; gfitted is
the stored list self._stars and targets the precomputed array self._shapes.
Returns the updated state and chi2 / dof with dof = shapes.size = 3 n. -/
def fit_func {S : Type} (measure : WFState → S → Fin 3 → ℚ)
    (gfitted : List S) (targets : List (Fin 3 → ℚ))
    (s : WFState) (p : UpdateParams) : WFState × ℚ :=
  let s2 := update_psf_params s p
  let shapes := gfitted.map (measure s2)
  let chi2 := chi2Of s2.weights shapes targets
  let dof : ℚ := (shapes.length * 3 : ℕ)
  (s2, chi2 / dof)

/-- The target descriptors self._shapes computed inside fit before the
optimizer starts: the Gaussian comparison model refits each observed star
once (gfit) and its fitted parameters (gparams) are recorded. -/
def fitTargets {S : Type} (gfit : S → S) (gparams : S → Fin 3 → ℚ)
    (stars : List S) : List (Fin 3 → ℚ) :=
  (stars.map gfit).map gparams

/-- DECamWavefrontPSF.fit: compute the target descriptors once, hand the
objective closure to the external bounded optimizer (migrad with budget
ncall = max_iterations), then install the best-found values unconditionally
via update_psf_params. The chisq_threshold and skip_fit arguments appear in
the signature and docstring only and are never read by the body. -/
def fit {S : Type} (measure : WFState → S → Fin 3 → ℚ)
    (gfit : S → S) (gparams : S → Fin 3 → ℚ)
    (migrad : (UpdateParams → ℚ) → Nat → MinuitResult)
    (s : WFState) (stars : List S)
    (chisq_threshold : ℚ) (max_iterations : Nat) (skip_fit : Bool) : WFState :=
  let gfitted := stars.map gfit
  let targets := fitTargets gfit gparams stars
  let res := migrad (fun p => (fit_func measure gfitted targets s p).2) max_iterations
  update_psf_params s res.values

/-- The objective in per-star map form: one weighted-residual term per star,
normalized by 3 n. -/
theorem fit_func_map_form {S : Type} (measure : WFState → S → Fin 3 → ℚ)
    (gfit : S → S) (gparams : S → Fin 3 → ℚ)
    (s : WFState) (p : UpdateParams) (l : List S) :
    (fit_func measure (l.map gfit) (fitTargets gfit gparams l) s p).2 =
      (l.map fun a => ∑ j : Fin 3, (update_psf_params s p).weights j *
          (measure (update_psf_params s p) (gfit a) j - gparams (gfit a) j) ^ 2).sum
        / ((l.length * 3 : ℕ) : ℚ) := by
  simp only [fit_func, chi2Of, fitTargets, List.map_map, List.zip_map',
    List.length_map, Nat.cast_mul, Nat.cast_ofNat]
  rfl

/-- C2: every evaluation of the joint-mode objective returns the weighted sum
over all stars of squared differences between the re-measured descriptor of
the rendered model star and the per-star target descriptor, divided by the
total number of descriptor entries 3 n. The targets are exactly the
descriptors measured once from the observed stars (gparams after the single
Gaussian refit performed in fit) and are independent of the evaluation
point p, so they are not recomputed during objective evaluations. -/
theorem fit_func_eval {S : Type} (measure : WFState → S → Fin 3 → ℚ)
    (gfit : S → S) (gparams : S → Fin 3 → ℚ)
    (s : WFState) (stars : List S) (p : UpdateParams) :
    (fit_func measure (stars.map gfit) (fitTargets gfit gparams stars) s p).2 =
      (∑ i : Fin stars.length, ∑ j : Fin 3,
          (update_psf_params s p).weights j *
            (measure (update_psf_params s p) (gfit (stars[(i : Nat)])) j -
              gparams (gfit (stars[(i : Nat)])) j) ^ 2) /
        ((stars.length * 3 : ℕ) : ℚ) := by
  rw [fit_func_map_form, sum_map_get]

/-- C6: the joint-mode objective is invariant under permutation of the star
list: the per-star residual terms are reordered and their sum and the
degrees of freedom are unchanged. -/
theorem fit_func_perm {S : Type} (measure : WFState → S → Fin 3 → ℚ)
    (gfit : S → S) (gparams : S → Fin 3 → ℚ)
    (s : WFState) (p : UpdateParams) (l₁ l₂ : List S) (h : l₁.Perm l₂) :
    (fit_func measure (l₁.map gfit) (fitTargets gfit gparams l₁) s p).2 =
      (fit_func measure (l₂.map gfit) (fitTargets gfit gparams l₂) s p).2 := by
  rw [fit_func_map_form, fit_func_map_form, (h.map _).sum_eq, h.length_eq]

/-- Witness for C6 at a concrete pair of permuted star lists. -/
theorem fit_func_perm_witness :
    ([1, 2] : List ℚ).Perm [2, 1] ∧
    (fit_func (fun _ x _ => x) ([1, 2].map id)
        (fitTargets id (fun x _ => x) [1, 2]) exampleState {}).2 =
      (fit_func (fun _ x _ => x) ([2, 1].map id)
        (fitTargets id (fun x _ => x) [2, 1]) exampleState {}).2 :=
  ⟨by decide,
   fit_func_perm (fun _ x _ => x) id (fun x _ => x) exampleState {} [1, 2] [2, 1]
     (by decide)⟩

/-- C9: the chisq_threshold and skip_fit arguments of fit have no effect on
the resulting installed state; in particular the migrad run is performed
regardless of skip_fit and is bounded only by max_iterations. -/
theorem fit_ignores_threshold_and_skip {S : Type}
    (measure : WFState → S → Fin 3 → ℚ) (gfit : S → S) (gparams : S → Fin 3 → ℚ)
    (migrad : (UpdateParams → ℚ) → Nat → MinuitResult)
    (s : WFState) (stars : List S) (c₁ c₂ : ℚ) (m : Nat) (sk₁ sk₂ : Bool) :
    fit measure gfit gparams migrad s stars c₁ m sk₁ =
      fit measure gfit gparams migrad s stars c₂ m sk₂ := rfl

/-- C3 (amended): fit installs the best-found iterate unconditionally (the
final state is update_psf_params at the optimizer values, with no rollback);
moreover the observable outcome depends only on those values, so two
optimizer runs returning the same values but different convergence outcomes
are indistinguishable to the caller. -/
theorem fit_installs_unconditionally {S : Type}
    (measure : WFState → S → Fin 3 → ℚ) (gfit : S → S) (gparams : S → Fin 3 → ℚ)
    (mig₁ mig₂ : (UpdateParams → ℚ) → Nat → MinuitResult)
    (s : WFState) (stars : List S) (c₁ c₂ : ℚ) (m : Nat) (sk₁ sk₂ : Bool)
    (hv : ∀ f n, (mig₁ f n).values = (mig₂ f n).values) :
    fit measure gfit gparams mig₁ s stars c₁ m sk₁ =
      update_psf_params s
        ((mig₁ (fun p => (fit_func measure (stars.map gfit)
            (fitTargets gfit gparams stars) s p).2) m).values) ∧
    fit measure gfit gparams mig₁ s stars c₁ m sk₁ =
      fit measure gfit gparams mig₂ s stars c₂ m sk₂ := by
  constructor
  · rfl
  · exact congrArg (update_psf_params s)
      (hv (fun p => (fit_func measure (stars.map gfit)
        (fitTargets gfit gparams stars) s p).2) m)

/-- A migrad oracle that exhausts its call budget without converging. -/
def migExhausted : (UpdateParams → ℚ) → Nat → MinuitResult :=
  fun _ _ => ⟨{ r0 := .val (1/5) }, false⟩

/-- A migrad oracle that converges to the same best-found values. -/
def migConverged : (UpdateParams → ℚ) → Nat → MinuitResult :=
  fun _ _ => ⟨{ r0 := .val (1/5) }, true⟩

/-- Witness for C3: applying the theorem at concrete inputs, with the two
oracles agreeing on values, the installed state equals the unconditional
update and the two fit outcomes coincide. -/
theorem fit_installs_unconditionally_witness :
    fit (fun _ (x : ℚ) _ => x) id (fun x _ => x) migExhausted exampleState [1]
        (1/10) 300 false =
      update_psf_params exampleState
        ((migExhausted (fun p => (fit_func (fun _ (x : ℚ) _ => x) ([1].map id)
            (fitTargets id (fun x _ => x) [1]) exampleState p).2) 300).values) ∧
    fit (fun _ (x : ℚ) _ => x) id (fun x _ => x) migExhausted exampleState [1]
        (1/10) 300 false =
      fit (fun _ (x : ℚ) _ => x) id (fun x _ => x) migConverged exampleState [1]
        (1/10) 300 true :=
  fit_installs_unconditionally (fun _ (x : ℚ) _ => x) id (fun x _ => x)
    migExhausted migConverged exampleState [1] (1/10) (1/10) 300 false true
    (fun _ _ => rfl)

/-- Counterexample for C3 as stated: a migrad run that exhausts its budget
(converged = false) produces an outcome of fit identical to that of a
converged run, so the degraded-result condition is not reported to the
caller; fit returns nothing and raises nothing, a silent success. -/
theorem fit_silent_nonconvergence_counterexample :
    (migExhausted (fun _ => 0) 300).converged = false ∧
    (migConverged (fun _ => 0) 300).converged = true ∧
    fit (fun _ (x : ℚ) _ => x) id (fun x _ => x) migExhausted exampleState [1]
        (1/10) 300 false =
      fit (fun _ (x : ℚ) _ => x) id (fun x _ => x) migConverged exampleState [1]
        (1/10) 300 false :=
  ⟨rfl, rfl, rfl⟩

/-- DECamWavefrontPSF.drawStar: move the star to focal coordinates,
interpolate the wavefront parameters at its position, and render the model
image; the three external stages are abstract. It reads the state and
returns only a star, so no field of the state (in particular the weight
vector) is written by it. -/
def drawStar {S : Type} (pixelToFocal : S → S) (interpolate : WFState → S → S)
    (draw : WFState → S → S) (s : WFState) (star : S) : S :=
  draw s (interpolate s (pixelToFocal star))

/-- Normalization of the constructor weights: self.weights /= weights.sum. -/
def initWeights (w : Fin 3 → ℚ) : Fin 3 → ℚ := fun i => w i / ∑ j, w j

/-- C8: for any weight vector of positive sum the stored normalized weights
sum to 1; the weight vector is untouched by update_psf_params, by objective
evaluations, and by fit; and under the default configuration [0.5, 1, 1] the
size component is strictly smaller than each shape component. -/
theorem weights_normalized_and_fixed :
    (∀ w : Fin 3 → ℚ, 0 < ∑ j, w j → ∑ i, initWeights w i = 1) ∧
    (∀ s p, (update_psf_params s p).weights = s.weights) ∧
    (∀ (S : Type) (measure : WFState → S → Fin 3 → ℚ) gfitted targets s p,
      (fit_func measure gfitted targets s p).1.weights = s.weights) ∧
    (∀ (S : Type) (measure : WFState → S → Fin 3 → ℚ) gfit gparams migrad s
        (stars : List S) c m sk,
      (fit measure gfit gparams migrad s stars c m sk).weights = s.weights) ∧
    (initWeights ![1/2, 1, 1] 0 < initWeights ![1/2, 1, 1] 1 ∧
     initWeights ![1/2, 1, 1] 0 < initWeights ![1/2, 1, 1] 2) := by
  refine ⟨?_, ?_, ?_, ?_, ?_, ?_⟩
  · intro w hw
    have hne : (∑ j, w j) ≠ 0 := ne_of_gt hw
    simp [initWeights, ← Finset.sum_div, div_self hne]
  · intro s p; rfl
  · intro S measure gfitted targets s p; rfl
  · intro S measure gfit gparams migrad s stars c m sk; rfl
  · simp only [initWeights, Fin.sum_univ_three]
    norm_num
  · simp only [initWeights, Fin.sum_univ_three]
    norm_num

/-- Witness for C8 at the default weight vector [0.5, 1, 1]. -/
theorem weights_normalized_witness :
    (0 < ∑ j, (![1/2, 1, 1] : Fin 3 → ℚ) j) ∧
    (∑ i, initWeights ![1/2, 1, 1] i = 1) := by
  have h : (0 : ℚ) < ∑ j, (![1/2, 1, 1] : Fin 3 → ℚ) j := by
    simp only [Fin.sum_univ_three]
    norm_num
  exact ⟨h, weights_normalized_and_fixed.1 ![1/2, 1, 1] h⟩

/-- The ITERATIVE-mode loop body of the calibration harness (iterate in
test_gp_interp): refit every star, solve the interpolator, install the
solution and reflux each star; it is abstracted here as a step function on
a bundle T returning the updated bundle with the summed chi-square and
degrees of freedom of that pass. The loop runs for iteration in range(10),
breaking after a pass when oldchisq > 0 and abs(oldchisq - chisq) < dof/10,
and otherwise sets oldchisq to the chi-square of the pass. -/
def iterateLoop {T : Type} (step : T → T × ℚ × ℚ) : Nat → ℚ → T → T × Nat
  | 0, _, t => (t, 0)
  | fuel + 1, oldchisq, t =>
    let r := step t
    if 0 < oldchisq ∧ |oldchisq - r.2.1| < r.2.2 / 10 then (r.1, 1)
    else
      let rest := iterateLoop step fuel r.2.1 r.1
      (rest.1, rest.2 + 1)

/-- The full calibration loop: iteration cap 10, initial oldchisq = 0.
Returns the final bundle and the number of passes performed. -/
def iterateCalib {T : Type} (step : T → T × ℚ × ℚ) (t : T) : T × Nat :=
  iterateLoop step 10 0 t

/-- The bundle state before pass n, were the loop never to break. -/
def stateAt {T : Type} (step : T → T × ℚ × ℚ) (t0 : T) : Nat → T
  | 0 => t0
  | n + 1 => (step (stateAt step t0 n)).1

/-- The chi-square computed by pass n. -/
def chisqAt {T : Type} (step : T → T × ℚ × ℚ) (t0 : T) (n : Nat) : ℚ :=
  (step (stateAt step t0 n)).2.1

/-- The degrees of freedom computed by pass n. -/
def dofAt {T : Type} (step : T → T × ℚ × ℚ) (t0 : T) (n : Nat) : ℚ :=
  (step (stateAt step t0 n)).2.2

/-- The value of oldchisq seen by the break test of pass n: 0 before the
first pass, afterwards the chi-square of the previous pass. -/
def oldAt {T : Type} (step : T → T × ℚ × ℚ) (t0 : T) : Nat → ℚ
  | 0 => 0
  | n + 1 => chisqAt step t0 n

/-- The break condition tested at the end of pass n. -/
def stopCond {T : Type} (step : T → T × ℚ × ℚ) (t0 : T) (n : Nat) : Prop :=
  0 < oldAt step t0 n ∧
    |oldAt step t0 n - chisqAt step t0 n| < dofAt step t0 n / 10

/-- Pass-count characterization of iterateLoop, generalized over the
remaining fuel and the starting pass index. -/
theorem iterateLoop_spec {T : Type} (step : T → T × ℚ × ℚ) (t0 : T) :
    ∀ fuel k : Nat,
      (iterateLoop step fuel (oldAt step t0 k) (stateAt step t0 k)).2 ≤ fuel ∧
      ((iterateLoop step fuel (oldAt step t0 k) (stateAt step t0 k)).2 < fuel ↔
        ∃ i < fuel - 1, stopCond step t0 (k + i)) := by
  intro fuel
  induction fuel with
  | zero =>
    intro k
    constructor
    · simp [iterateLoop]
    · simp [iterateLoop]
  | succ fuel ih =>
    intro k
    by_cases h : stopCond step t0 k
    · have hrun : iterateLoop step (fuel + 1) (oldAt step t0 k) (stateAt step t0 k) =
          ((step (stateAt step t0 k)).1, 1) := by
        simp only [iterateLoop]
        rw [if_pos]
        exact h
      rw [hrun]
      refine ⟨by omega, ?_, ?_⟩
      · intro h1
        exact ⟨0, by omega, by simpa using h⟩
      · rintro ⟨i, hi, _⟩
        omega
    · have hrun : iterateLoop step (fuel + 1) (oldAt step t0 k) (stateAt step t0 k) =
          ((iterateLoop step fuel (oldAt step t0 (k + 1)) (stateAt step t0 (k + 1))).1,
            (iterateLoop step fuel (oldAt step t0 (k + 1)) (stateAt step t0 (k + 1))).2 + 1) := by
        simp only [iterateLoop]
        rw [if_neg]
        · rfl
        · exact h
      rw [hrun]
      obtain ⟨ihle, ihiff⟩ := ih (k + 1)
      refine ⟨by omega, ?_, ?_⟩
      · intro hlt
        have h2 : (iterateLoop step fuel (oldAt step t0 (k + 1))
            (stateAt step t0 (k + 1))).2 < fuel := by omega
        obtain ⟨i, hi, hc⟩ := ihiff.1 h2
        refine ⟨i + 1, by omega, ?_⟩
        have he : k + (i + 1) = k + 1 + i := by omega
        rw [he]
        exact hc
      · rintro ⟨i, hi, hc⟩
        cases i with
        | zero => exact absurd (by simpa using hc) h
        | succ i =>
          have he : k + (i + 1) = k + 1 + i := by omega
          rw [he] at hc
          have h3 := ihiff.2 ⟨i, by omega, hc⟩
          omega

/-- C7: ITERATIVE-mode termination. For every star bundle and every loop
body, the calibration loop performs at most 10 passes, and it performs
strictly fewer than 10 exactly when some pass among the first nine ends
with the previous chi-square positive and the absolute chi-square change
below the total degrees of freedom divided by 10. -/
theorem iterate_terminates {T : Type} (step : T → T × ℚ × ℚ) (t0 : T) :
    (iterateCalib step t0).2 ≤ 10 ∧
    ((iterateCalib step t0).2 < 10 ↔ ∃ i < 9, stopCond step t0 i) := by
  have h := iterateLoop_spec step t0 10 0
  simpa [iterateCalib, oldAt, stateAt] using h

/-- A value in the minuit keyword dictionary: a boolean flag, a number, or a
pair of limits. -/
inductive MinuitVal where
  | b : Bool → MinuitVal
  | num : ℚ → MinuitVal
  | pair : ℚ → ℚ → MinuitVal
deriving DecidableEq, Repr

/-- The global entries and the r0, g1, g2 lines of the dict literal. -/
def headerEntries : List (String × MinuitVal) := [
  ("throw_nan", .b false),
  ("pedantic", .b true),
  ("print_level", .num 2),
  ("errordef", .num 1),
  ("r0", .num (1/10)), ("fix_r0", .b false),
  ("limit_r0", .pair (2/25) (1/4)), ("error_r0", .num (1/100)),
  ("g1", .num 0), ("fix_g1", .b false),
  ("limit_g1", .pair (-1/5) (1/5)), ("error_g1", .num (1/100)),
  ("g2", .num 0), ("fix_g2", .b false),
  ("limit_g2", .pair (-1/5) (1/5)), ("error_g2", .num (1/100))]

/-- The z04 parameter lines of the dict literal; the y line re-assigns the
x step-size key, as in the source. -/
def z04Entries : List (String × MinuitVal) := [
  ("z04d", .num 0), ("fix_z04d", .b false),
  ("limit_z04d", .pair (-2) 2), ("error_z04d", .num (1/100)),
  ("z04x", .num 0), ("fix_z04x", .b false),
  ("limit_z04x", .pair (-2) 2), ("error_z04x", .num (1/10000)),
  ("z04y", .num 0), ("fix_z04y", .b false),
  ("limit_z04y", .pair (-2) 2), ("error_z04x", .num (1/10000))]

/-- The z05 parameter lines of the dict literal; the y line re-assigns the
x step-size key, as in the source. -/
def z05Entries : List (String × MinuitVal) := [
  ("z05d", .num 0), ("fix_z05d", .b false),
  ("limit_z05d", .pair (-2) 2), ("error_z05d", .num (1/100)),
  ("z05x", .num 0), ("fix_z05x", .b false),
  ("limit_z05x", .pair (-2) 2), ("error_z05x", .num (1/10000)),
  ("z05y", .num 0), ("fix_z05y", .b false),
  ("limit_z05y", .pair (-2) 2), ("error_z05x", .num (1/10000))]

/-- The z06 parameter lines of the dict literal; the y line re-assigns the
x step-size key, as in the source. -/
def z06Entries : List (String × MinuitVal) := [
  ("z06d", .num 0), ("fix_z06d", .b false),
  ("limit_z06d", .pair (-2) 2), ("error_z06d", .num (1/100)),
  ("z06x", .num 0), ("fix_z06x", .b false),
  ("limit_z06x", .pair (-2) 2), ("error_z06x", .num (1/10000)),
  ("z06y", .num 0), ("fix_z06y", .b false),
  ("limit_z06y", .pair (-2) 2), ("error_z06x", .num (1/10000))]

/-- The z07 parameter lines of the dict literal; the y line re-assigns the
x step-size key, as in the source. -/
def z07Entries : List (String × MinuitVal) := [
  ("z07d", .num 0), ("fix_z07d", .b false),
  ("limit_z07d", .pair (-2) 2), ("error_z07d", .num (1/100)),
  ("z07x", .num 0), ("fix_z07x", .b false),
  ("limit_z07x", .pair (-2) 2), ("error_z07x", .num (1/10000)),
  ("z07y", .num 0), ("fix_z07y", .b false),
  ("limit_z07y", .pair (-2) 2), ("error_z07x", .num (1/10000))]

/-- The z08 parameter lines of the dict literal; the y line re-assigns the
x step-size key, as in the source. -/
def z08Entries : List (String × MinuitVal) := [
  ("z08d", .num 0), ("fix_z08d", .b false),
  ("limit_z08d", .pair (-2) 2), ("error_z08d", .num (1/100)),
  ("z08x", .num 0), ("fix_z08x", .b false),
  ("limit_z08x", .pair (-2) 2), ("error_z08x", .num (1/10000)),
  ("z08y", .num 0), ("fix_z08y", .b false),
  ("limit_z08y", .pair (-2) 2), ("error_z08x", .num (1/10000))]

/-- The z09 parameter lines of the dict literal; the y line re-assigns the
x step-size key, as in the source. -/
def z09Entries : List (String × MinuitVal) := [
  ("z09d", .num 0), ("fix_z09d", .b false),
  ("limit_z09d", .pair (-2) 2), ("error_z09d", .num (1/100)),
  ("z09x", .num 0), ("fix_z09x", .b false),
  ("limit_z09x", .pair (-2) 2), ("error_z09x", .num (1/10000)),
  ("z09y", .num 0), ("fix_z09y", .b false),
  ("limit_z09y", .pair (-2) 2), ("error_z09x", .num (1/10000))]

/-- The z10 parameter lines of the dict literal; the y line re-assigns the
x step-size key, as in the source. -/
def z10Entries : List (String × MinuitVal) := [
  ("z10d", .num 0), ("fix_z10d", .b false),
  ("limit_z10d", .pair (-2) 2), ("error_z10d", .num (1/100)),
  ("z10x", .num 0), ("fix_z10x", .b false),
  ("limit_z10x", .pair (-2) 2), ("error_z10x", .num (1/10000)),
  ("z10y", .num 0), ("fix_z10y", .b false),
  ("limit_z10y", .pair (-2) 2), ("error_z10x", .num (1/10000))]

/-- The z11 parameter lines of the dict literal; the y line re-assigns the
x step-size key, as in the source. -/
def z11Entries : List (String × MinuitVal) := [
  ("z11d", .num 0), ("fix_z11d", .b false),
  ("limit_z11d", .pair (-2) 2), ("error_z11d", .num (1/100)),
  ("z11x", .num 0), ("fix_z11x", .b false),
  ("limit_z11x", .pair (-2) 2), ("error_z11x", .num (1/10000)),
  ("z11y", .num 0), ("fix_z11y", .b false),
  ("limit_z11y", .pair (-2) 2), ("error_z11x", .num (1/10000))]

/-- The default self.minuit_kwargs dict literal of the constructor, entry by
entry in source order. Python keeps the last value for a repeated key of a
dict literal, so the resulting dict carries no error_z..y keys. -/
def minuit_kwargs : List (String × MinuitVal) :=
  headerEntries ++ z04Entries ++ z05Entries ++ z06Entries ++ z07Entries ++
    z08Entries ++ z09Entries ++ z10Entries ++ z11Entries

/-- The key set of the default minuit configuration dict. -/
def dictKeys : List String := minuit_kwargs.map Prod.fst

/-- C10: for every Zernike row 04..11 the default minuit configuration has
step-size keys error_zNd and error_zNx but no key error_zNy; the key
error_zNx occurs twice in the literal because the y line re-assigns it, so
all y-tilt step-size entries are absent from the resulting dict. -/
theorem minuit_kwargs_missing_y_error_keys :
    ∀ p ∈ [("error_z04d", "error_z04x", "error_z04y"),
           ("error_z05d", "error_z05x", "error_z05y"),
           ("error_z06d", "error_z06x", "error_z06y"),
           ("error_z07d", "error_z07x", "error_z07y"),
           ("error_z08d", "error_z08x", "error_z08y"),
           ("error_z09d", "error_z09x", "error_z09y"),
           ("error_z10d", "error_z10x", "error_z10y"),
           ("error_z11d", "error_z11x", "error_z11y")],
      p.1 ∈ dictKeys ∧ p.2.1 ∈ dictKeys ∧ p.2.2 ∉ dictKeys ∧
        dictKeys.count p.2.1 = 2 := by decide

/-- Witness for C10 at the first Zernike row. -/
theorem minuit_kwargs_missing_y_error_keys_witness :
    ("error_z04d", "error_z04x", "error_z04y") ∈
      [("error_z04d", "error_z04x", "error_z04y"),
       ("error_z05d", "error_z05x", "error_z05y"),
       ("error_z06d", "error_z06x", "error_z06y"),
       ("error_z07d", "error_z07x", "error_z07y"),
       ("error_z08d", "error_z08x", "error_z08y"),
       ("error_z09d", "error_z09x", "error_z09y"),
       ("error_z10d", "error_z10x", "error_z10y"),
       ("error_z11d", "error_z11x", "error_z11y")] ∧
    ("error_z04d" ∈ dictKeys ∧ "error_z04x" ∈ dictKeys ∧
     "error_z04y" ∉ dictKeys ∧ dictKeys.count "error_z04x" = 2) :=
  ⟨by decide,
   minuit_kwargs_missing_y_error_keys ("error_z04d", "error_z04x", "error_z04y")
     (by decide)⟩

/-
The nearest-neighbor (kNNInterp) and Gaussian-process (GPInterp)
interpolators are exercised by the test files of this repository but their
implementation modules are absent from the sources; the definitions below
are modelled from the specification: solve stores the attribute and target
matrices verbatim, interpolate returns the mean of the k nearest stored
targets under Euclidean distance in attribute space, and write/read persist
the raw matrices together with the attribute-name lists (nearest neighbor),
and the kernel specification, both hyperparameter vectors, regression
weights, training coordinates and per-dimension target means (regression).
-/

/-- Modelled from the spec: the trained state of kNNInterp, whose
implementation module is absent from the sources. It holds the neighbor
count, the interpolation attribute-name schema, the selected target
indices, and the attribute matrix X and target matrix y stored verbatim by
solve. -/
structure KNNInterp where
  n_neighbors : Nat
  attr_interp : List String
  attr_target : List Nat
  X : List (List ℚ)
  y : List (List ℚ)
deriving DecidableEq, Repr

/-- Squared Euclidean distance in attribute space. -/
def sqDist : List ℚ → List ℚ → ℚ
  | [], _ => 0
  | _ :: _, [] => 0
  | a :: as, b :: bs => (a - b) ^ 2 + sqDist as bs

/-- First element of the list minimizing f; ties keep the earliest, as the
index-ordered neighbor search does. -/
def argminBy {α : Type} (f : α → ℚ) : List α → Option α
  | [] => none
  | a :: l =>
    match argminBy f l with
    | none => some a
    | some b => if f a ≤ f b then some a else some b

/-- The k nearest training pairs to the query point, nearest first,
extracted greedily. -/
def kNearest (q : List ℚ) : Nat → List (List ℚ × List ℚ) → List (List ℚ × List ℚ)
  | 0, _ => []
  | k + 1, train =>
    match argminBy (fun rt => sqDist q rt.1) train with
    | none => []
    | some rt => rt :: kNearest q k (train.erase rt)

/-- Componentwise sum of two target vectors. -/
def vecAdd (a b : List ℚ) : List ℚ := List.zipWith (· + ·) a b

/-- Scale a target vector. -/
def vecScale (c : ℚ) (v : List ℚ) : List ℚ := v.map (fun x => c * x)

/-- Mean of a nonempty list of target vectors (empty input gives []). -/
def meanVec : List (List ℚ) → List ℚ
  | [] => []
  | v :: vs => vecScale (1 / ((vs.length : ℚ) + 1)) (vs.foldl vecAdd v)

/-- Modelled from the spec: kNNInterp.interpolate returns the mean of the
n_neighbors nearest stored targets, the exact stored value when k = 1. -/
def KNNInterp.interpolate (knn : KNNInterp) (q : List ℚ) : List ℚ :=
  meanVec ((kNearest q knn.n_neighbors (knn.X.zip knn.y)).map Prod.snd)

theorem sqDist_nonneg (a : List ℚ) : ∀ b, 0 ≤ sqDist a b := by
  induction a with
  | nil => intro b; cases b <;> simp [sqDist]
  | cons x xs ih =>
    intro b
    cases b with
    | nil => simp [sqDist]
    | cons y ys => exact add_nonneg (sq_nonneg _) (ih ys)

theorem sqDist_self (a : List ℚ) : sqDist a a = 0 := by
  induction a with
  | nil => rfl
  | cons x xs ih => simp [sqDist, ih]

theorem eq_of_sqDist_eq_zero :
    ∀ a b : List ℚ, a.length = b.length → sqDist a b = 0 → a = b := by
  intro a
  induction a with
  | nil =>
    intro b hl _
    exact (List.length_eq_zero.mp hl.symm).symm
  | cons x xs ih =>
    intro b hl h0
    cases b with
    | nil => simp at hl
    | cons y ys =>
      have h0' : (x - y) ^ 2 + sqDist xs ys = 0 := h0
      obtain ⟨h1, h2⟩ :=
        (add_eq_zero_iff_of_nonneg (sq_nonneg _) (sqDist_nonneg xs ys)).mp h0'
      have hx : x = y := sub_eq_zero.mp (by
        have := pow_eq_zero_iff (n := 2) (by norm_num) |>.mp h1
        exact this)
      have hxs : xs = ys := ih ys (by simpa using hl) h2
      rw [hx, hxs]

theorem argminBy_mem {α : Type} (f : α → ℚ) :
    ∀ {l : List α} {b : α}, argminBy f l = some b → b ∈ l := by
  intro l
  induction l with
  | nil => intro b h; simp [argminBy] at h
  | cons a t ih =>
    intro b h
    simp only [argminBy] at h
    cases ht : argminBy f t with
    | none =>
      rw [ht] at h
      simp only at h
      injection h with h
      exact h ▸ List.mem_cons_self a t
    | some c =>
      rw [ht] at h
      simp only at h
      by_cases hc : f a ≤ f c
      · rw [if_pos hc] at h
        injection h with h
        exact h ▸ List.mem_cons_self a t
      · rw [if_neg hc] at h
        injection h with h
        exact h ▸ List.mem_cons_of_mem a (ih ht)

theorem argminBy_eq_of_unique_min {α : Type} (f : α → ℚ) :
    ∀ (l : List α) (x : α), x ∈ l → f x = 0 → (∀ z ∈ l, 0 ≤ f z) →
      (∀ z ∈ l, f z = 0 → z = x) → argminBy f l = some x := by
  intro l
  induction l with
  | nil => intro x hx; simp at hx
  | cons a t ih =>
    intro x hx hfx hpos huniq
    rcases List.mem_cons.mp hx with h | hxt
    · subst h
      simp only [argminBy]
      cases ht : argminBy f t with
      | none => rfl
      | some c =>
        have hc : c ∈ t := argminBy_mem f ht
        have hle : f x ≤ f c := hfx ▸ hpos c (List.mem_cons_of_mem x hc)
        simp [if_pos hle]
    · have IH : argminBy f t = some x :=
        ih x hxt hfx (fun z hz => hpos z (List.mem_cons_of_mem a hz))
          (fun z hz h0 => huniq z (List.mem_cons_of_mem a hz) h0)
      simp only [argminBy, IH]
      by_cases hax : a = x
      · subst hax
        simp
      · have hfa : 0 < f a :=
          lt_of_le_of_ne (hpos a (List.mem_cons_self a t))
            (fun h => hax (huniq a (List.mem_cons_self a t) h.symm))

        rw [if_neg]
        rw [hfx]
        exact not_le.mpr hfa

theorem kNearest_one (q : List ℚ) (train : List (List ℚ × List ℚ))
    (rt : List ℚ × List ℚ)
    (h : argminBy (fun z => sqDist q z.1) train = some rt) :
    kNearest q 1 train = [rt] := by
  simp [kNearest, h]

theorem meanVec_single (v : List ℚ) : meanVec [v] = v := by
  simp [meanVec, vecScale]

/-- C5 (amended): nearest-neighbor exact recovery with k = 1. For any
training index whose attribute row is not duplicated elsewhere (the
attribute rows are pairwise distinct) and with the schema widths uniform,
interpolating at exactly that attribute row returns the stored target
vector of that training point, bit-exact. -/
theorem knn_exact_recovery (knn : KNNInterp) (i : Nat) (hi : i < knn.X.length)
    (hk : knn.n_neighbors = 1)
    (hlen : knn.y.length = knn.X.length)
    (hw : ∀ r ∈ knn.X, r.length = knn.attr_interp.length)
    (hdist : knn.X.Pairwise (· ≠ ·)) :
    knn.interpolate (knn.X.get ⟨i, hi⟩) = knn.y.get ⟨i, hlen ▸ hi⟩ := by
  have hiy : i < knn.y.length := hlen ▸ hi
  show knn.interpolate (knn.X[i]) = knn.y[i]
  have hitrain : i < (knn.X.zip knn.y).length := by
    rw [List.length_zip, hlen]
    simpa using hi
  have hmem : ((knn.X[i], knn.y[i]) : List ℚ × List ℚ) ∈ knn.X.zip knn.y := by
    have hg : (knn.X.zip knn.y)[i] = (knn.X[i], knn.y[i]) := List.getElem_zip
    rw [← hg]
    exact List.getElem_mem hitrain
  have hzero : sqDist (knn.X[i]) ((knn.X[i], knn.y[i]) : List ℚ × List ℚ).1 = 0 :=
    sqDist_self _
  have hpos : ∀ z ∈ knn.X.zip knn.y, 0 ≤ sqDist (knn.X[i]) z.1 :=
    fun z _ => sqDist_nonneg _ z.1
  have huniq : ∀ z ∈ knn.X.zip knn.y, sqDist (knn.X[i]) z.1 = 0 →
      z = (knn.X[i], knn.y[i]) := by
    intro z hz h0
    obtain ⟨j, hj, hzj⟩ := List.mem_iff_getElem.mp hz
    have hjX : j < knn.X.length := by
      rw [List.length_zip] at hj
      omega
    have hjy : j < knn.y.length := by
      rw [List.length_zip] at hj
      omega
    have hz1 : z = (knn.X[j], knn.y[j]) := by
      rw [← hzj]
      exact List.getElem_zip
    have hlq : (knn.X[i]).length = (knn.X[j]).length := by
      rw [hw _ (List.getElem_mem hi), hw _ (List.getElem_mem hjX)]
    have hXeq : knn.X[i] = knn.X[j] := by
      apply eq_of_sqDist_eq_zero _ _ hlq
      rw [hz1] at h0
      exact h0
    have hij : i = j := by
      by_contra hne
      have hpg := List.pairwise_iff_getElem.mp hdist
      rcases Nat.lt_or_ge i j with hlt | hge
      · exact (hpg i j hi hjX hlt) hXeq
      · have hlt : j < i := by omega
        exact (hpg j i hjX hi hlt) hXeq.symm
    subst hij
    rw [hz1, hXeq]
  have hargmin : argminBy (fun z => sqDist (knn.X[i]) z.1) (knn.X.zip knn.y) =
      some (knn.X[i], knn.y[i]) :=
    argminBy_eq_of_unique_min _ (knn.X.zip knn.y) _ hmem hzero hpos huniq
  unfold KNNInterp.interpolate
  rw [hk, kNearest_one _ _ _ hargmin]
  simp [meanVec_single]

/-- Witness for C5: a concrete nearest-neighbor state with two distinct
training points recovers the stored target of the first point exactly. -/
theorem knn_exact_recovery_witness :
    KNNInterp.interpolate ⟨1, ["focal_x"], [0], [[0], [1]], [[5], [6]]⟩ [0] = [5] := by
  have h := knn_exact_recovery ⟨1, ["focal_x"], [0], [[0], [1]], [[5], [6]]⟩ 0
    (by decide) rfl (by decide) (by decide) (by decide)
  simpa using h

/-- A nearest-neighbor state holding two training points with identical
attribute rows but different stored targets. -/
def dupKNN : KNNInterp := ⟨1, ["focal_x"], [0], [[0], [0]], [[1], [2]]⟩

/-- Counterexample for C5 as stated: training point 1 of dupKNN has
attribute row [0] and stored target [2], yet interpolating at [0] returns
the target [1] of the earlier duplicate, not [2]. -/
theorem knn_exact_recovery_counterexample :
    dupKNN.n_neighbors = 1 ∧
    dupKNN.X[1]? = some [0] ∧
    dupKNN.y[1]? = some [2] ∧
    dupKNN.interpolate [0] = [1] ∧ ([1] : List ℚ) ≠ [2] := by
  refine ⟨rfl, rfl, rfl, ?_, by simp⟩
  simp [dupKNN, KNNInterp.interpolate, kNearest, argminBy, sqDist, meanVec,
    vecScale, List.zip]

/-- Split a flat row-major array back into its rows: n rows of width p. -/
def chunkRows : Nat → Nat → List ℚ → List (List ℚ)
  | 0, _, _ => []
  | n + 1, p, l => l.take p :: chunkRows n p (l.drop p)

theorem chunkRows_join (p : Nat) :
    ∀ m : List (List ℚ), (∀ r ∈ m, r.length = p) →
      chunkRows m.length p m.flatten = m := by
  intro m
  induction m with
  | nil => intro _; rfl
  | cons r rs ih =>
    intro h
    have hr : r.length = p := h r (List.mem_cons_self r rs)
    have htake : (r ++ rs.flatten).take p = r := by
      rw [← hr]
      exact List.take_left r rs.flatten
    have hdrop : (r ++ rs.flatten).drop p = rs.flatten := by
      rw [← hr]
      exact List.drop_left r rs.flatten
    simp only [List.length_cons, List.flatten_cons, chunkRows, htake, hdrop]
    rw [ih (fun z hz => h z (List.mem_cons_of_mem r hz))]

/-- Modelled from the spec: the named persistence table written for a
nearest-neighbor state; the matrices are stored flat with their row count
and widths, alongside the attribute-name lists and the neighbor count. -/
structure KNNTable where
  nRows : Nat
  nInterp : Nat
  nTarget : Nat
  xFlat : List ℚ
  yFlat : List ℚ
  attrInterpNames : List String
  attrTargetIdx : List Nat
  n_neighbors : Nat
deriving DecidableEq, Repr

/-- Modelled from the spec: kNNInterp.write persists the raw matrices and
the attribute-name lists. -/
def KNNInterp.write (knn : KNNInterp) : KNNTable :=
  ⟨knn.X.length, knn.attr_interp.length, knn.attr_target.length,
   knn.X.flatten, knn.y.flatten, knn.attr_interp, knn.attr_target, knn.n_neighbors⟩

/-- Modelled from the spec: kNNInterp.read rebuilds the state from the
table with no retraining. -/
def KNNInterp.read (t : KNNTable) : KNNInterp :=
  ⟨t.n_neighbors, t.attrInterpNames, t.attrTargetIdx,
   chunkRows t.nRows t.nInterp t.xFlat, chunkRows t.nRows t.nTarget t.yFlat⟩

/-- Modelled from the spec: the closed set of kernel primitives of the
regression interpolator, composable by sum and product: isotropic squared
exponential with bounds, anisotropic squared exponential with a supplied
precision matrix, pure noise with bounds, and a fixed user-supplied
covariance expression of the 2-D separation vector. -/
inductive KernelSpec where
  | rbf : ℚ → ℚ × ℚ → KernelSpec
  | anisoRBF : List (List ℚ) → KernelSpec
  | white : ℚ → ℚ × ℚ → KernelSpec
  | explicitK : String → KernelSpec
  | ksum : KernelSpec → KernelSpec → KernelSpec
  | kprod : KernelSpec → KernelSpec → KernelSpec
deriving DecidableEq, Repr

/-- Modelled from the spec: the trained state of GPInterp, whose
implementation module is absent from the sources: kernel specification,
PCA component count, optional optimizer, requested hyperparameters theta,
optimized hyperparameters theta_opt, regression weights alpha (one row per
training point, one column per output dimension), training coordinates
X_train (rows of the 2 focal-plane coordinates), and the per-dimension
target means subtracted before fitting. -/
structure GPInterp where
  kernelSpec : KernelSpec
  npca : Nat
  optimizer : Option String
  theta : List ℚ
  theta_opt : List ℚ
  alpha : List (List ℚ)
  X_train : List (List ℚ)
  y_train_mean : List ℚ
deriving DecidableEq, Repr

/-- Modelled from the spec: the named persistence table for a regression
state, with the numeric matrices stored flat beside their dimensions. -/
structure GPTable where
  kernelSpec : KernelSpec
  npca : Nat
  optimizer : Option String
  theta : List ℚ
  theta_opt : List ℚ
  nRows : Nat
  nOut : Nat
  nDim : Nat
  alphaFlat : List ℚ
  xFlat : List ℚ
  y_train_mean : List ℚ
deriving DecidableEq, Repr

/-- Modelled from the spec: GPInterp.write persists the kernel
specification, both hyperparameter vectors, the regression weights, the
training coordinates, and the target means. -/
def GPInterp.write (gp : GPInterp) : GPTable :=
  ⟨gp.kernelSpec, gp.npca, gp.optimizer, gp.theta, gp.theta_opt,
   gp.X_train.length, gp.y_train_mean.length, 2,
   gp.alpha.flatten, gp.X_train.flatten, gp.y_train_mean⟩

/-- Modelled from the spec: GPInterp.read rebuilds the state exactly. -/
def GPInterp.read (t : GPTable) : GPInterp :=
  ⟨t.kernelSpec, t.npca, t.optimizer, t.theta, t.theta_opt,
   chunkRows t.nRows t.nOut t.alphaFlat, chunkRows t.nRows t.nDim t.xFlat,
   t.y_train_mean⟩

/-- C4: serialization round trip. For a nearest-neighbor state with the
declared schema widths, write followed by read reproduces the attribute
matrix, the target matrix and both attribute-name lists exactly; for a
regression state with one weight row per training point, one weight column
per output dimension and 2-D training inputs, write followed by read
reproduces the whole state exactly, hence the kernel evaluated on the
training coordinates, both hyperparameter vectors, the regression weights,
the training coordinates and the target means, for any kernel evaluator. -/
theorem interp_serialization_roundtrip :
    (∀ knn : KNNInterp,
      (∀ r ∈ knn.X, r.length = knn.attr_interp.length) →
      (∀ r ∈ knn.y, r.length = knn.attr_target.length) →
      knn.y.length = knn.X.length →
      KNNInterp.read (KNNInterp.write knn) = knn) ∧
    (∀ gp : GPInterp,
      gp.alpha.length = gp.X_train.length →
      (∀ r ∈ gp.alpha, r.length = gp.y_train_mean.length) →
      (∀ r ∈ gp.X_train, r.length = 2) →
      GPInterp.read (GPInterp.write gp) = gp ∧
      ∀ kernelEval : KernelSpec → List ℚ → List (List ℚ) → List (List ℚ),
        kernelEval (GPInterp.read (GPInterp.write gp)).kernelSpec
            (GPInterp.read (GPInterp.write gp)).theta_opt
            (GPInterp.read (GPInterp.write gp)).X_train =
          kernelEval gp.kernelSpec gp.theta_opt gp.X_train) := by
  constructor
  · intro knn hX hy hlen
    have h1 : chunkRows knn.X.length knn.attr_interp.length knn.X.flatten = knn.X :=
      chunkRows_join _ _ hX
    have h2 : chunkRows knn.X.length knn.attr_target.length knn.y.flatten = knn.y := by
      rw [← hlen]
      exact chunkRows_join _ _ hy
    simp [KNNInterp.read, KNNInterp.write, h1, h2]
  · intro gp h0 h1 h2
    have ha : chunkRows gp.X_train.length gp.y_train_mean.length gp.alpha.flatten =
        gp.alpha := by
      rw [← h0]
      exact chunkRows_join _ _ h1
    have hx : chunkRows gp.X_train.length 2 gp.X_train.flatten = gp.X_train :=
      chunkRows_join _ _ h2
    have hread : GPInterp.read (GPInterp.write gp) = gp := by
      simp [GPInterp.read, GPInterp.write, ha, hx]
    exact ⟨hread, fun kernelEval => by rw [hread]⟩

/-- A small concrete trained nearest-neighbor state. -/
def exampleKNN : KNNInterp :=
  ⟨1, ["focal_x", "focal_y"], [0, 1], [[0, 0], [1, 2]], [[3, 4], [5, 6]]⟩

/-- A small concrete trained regression state with an optimized kernel. -/
def exampleGP : GPInterp :=
  ⟨.ksum (.rbf 1 (1/10, 1000)) (.white (1/100000) (1/10000000, 1/10)), 0,
   some "fmin_l_bfgs_b", [1, 2], [3, 4], [[5], [6]], [[0, 0], [1, 1]], [7]⟩

/-- Witness for C4: the round trip reproduces both example states. -/
theorem interp_serialization_roundtrip_witness :
    KNNInterp.read (KNNInterp.write exampleKNN) = exampleKNN ∧
    GPInterp.read (GPInterp.write exampleGP) = exampleGP :=
  ⟨interp_serialization_roundtrip.1 exampleKNN (by decide) (by decide) (by decide),
   (interp_serialization_roundtrip.2 exampleGP (by decide) (by decide)
     (by decide)).1⟩

end Piff
